import Mathlib

/-!
Verification of the modular memory system of the AI-Assistant repository
(`src/modular_memory.py`).

The Python code is shallowly embedded: each Python function used by the
claims is translated into an executable Lean definition over explicit
state.  Conventions of the embedding:

* Python `str` is Lean `String` (a list of characters); `len` on strings
  is `String.length` (both count code points).
* `datetime.now().isoformat()` timestamps are modelled by an abstract
  clock value `now : Nat` passed to each mutating call.  ISO timestamp
  strings compare chronologically, exactly like the `Nat` clock.
* Python `float` confidences are modelled by `ℚ`, with each decimal
  literal of the code written as an exact fraction via `mkRat` (0.7 is
  `mkRat 7 10`, 0.85 is `mkRat 85 100`, ...), and float division of two
  integers written `mkRat a b`.  All values compared in the code are
  short decimal fractions or ratios of small word counts, for which
  exact rational comparison agrees with IEEE double comparison.
* The JSON file backing the store is modelled by the in-memory state
  (`_load`/`_save` perform no computation on the data).
-/

namespace AIAssistant

/-! ## Python string primitives -/

/-- A Python whitespace character (the set used by `str.strip`/`str.split`). -/
def isWsChar (c : Char) : Bool :=
  c = ' ' || c = '\t' || c = '\n' || c = '\x0d' || c = '\x0b' || c = '\x0c'

/-- Python `str.lower()` (ASCII case mapping; all inputs here are ASCII). -/
def pyLower (s : String) : String :=
  ⟨s.data.map Char.toLower⟩

/-- Python `str.strip()`: drop leading and trailing whitespace. -/
def pyStrip (s : String) : String :=
  ⟨((s.data.dropWhile isWsChar).reverse.dropWhile isWsChar).reverse⟩

/-- Helper for `pySplitWs`: accumulate the current word (reversed) while
scanning the character list. -/
def splitWsGo : List Char → List Char → List String
  | [], cur => if cur.isEmpty then [] else [String.mk cur.reverse]
  | c :: rest, cur =>
    if isWsChar c then
      if cur.isEmpty then splitWsGo rest []
      else String.mk cur.reverse :: splitWsGo rest []
    else splitWsGo rest (c :: cur)

/-- Python `str.split()` with no argument: split on whitespace runs,
discarding empty pieces. -/
def pySplitWs (s : String) : List String :=
  splitWsGo s.data []

/-- Helper for `containsSub`: does `n` occur as a contiguous sublist of `h`? -/
def subSearch (n : List Char) : List Char → Bool
  | [] => n.isPrefixOf []
  | c :: t => n.isPrefixOf (c :: t) || subSearch n t

/-- Python `needle in hay` on strings (substring containment). -/
def containsSub (needle hay : String) : Bool :=
  subSearch needle.data hay.data

/-- Python `s.startswith(p)`. -/
def pyStartsWith (p s : String) : Bool :=
  p.data.isPrefixOf s.data

/-- Python `s[:n]` for a non-negative `n`. -/
def pyTake (n : Nat) (s : String) : String :=
  ⟨s.data.take n⟩

/-! ## Data model (`JSONMemoryBackend`)

A stored fact entry is the dictionary built in `save_fact`:
`{"fact", "category", "timestamp", "access_count", "last_accessed", "metadata"}`.
The metadata dictionary attached by `learn_from_conversation` is
`{'confidence', 'engine', 'learned_from'}`; `None`/`{}` metadata is
modelled by `Option.none`. -/

structure FactMeta where
  confidence : ℚ
  engine : String
  learned_from : String
deriving DecidableEq, Repr

structure FactEntry where
  fact : String
  category : String
  timestamp : Nat
  access_count : Nat
  last_accessed : Option Nat
  metadata : Option FactMeta
deriving DecidableEq, Repr

/-- The persistent state of `JSONMemoryBackend` (`self.data`). -/
structure BackendData where
  facts : List FactEntry
deriving DecidableEq, Repr

/-- `JSONMemoryBackend._are_similar(fact1, fact2)`: exact match, substring
containment in either direction, or word-set overlap above 0.7 of the
smaller set. -/
def are_similar (fact1 fact2 : String) : Bool :=
  if fact1 = fact2 then true
  else if containsSub fact1 fact2 || containsSub fact2 fact1 then true
  else
    let words1 := (pySplitWs fact1).dedup
    let words2 := (pySplitWs fact2).dedup
    let overlap := (words1.filter (· ∈ words2)).length
    let min_length := min words1.length words2.length
    -- `min_length > 0 and overlap / min_length > 0.7`
    if 0 < min_length ∧ mkRat overlap min_length > mkRat 7 10 then true
    else false

/-- The fresh entry appended by `save_fact` when no similar fact exists. -/
def mkFactEntry (fact category : String) (now : Nat) (metadata : Option FactMeta) :
    FactEntry :=
  { fact := fact
    category := category
    timestamp := now
    access_count := 0
    last_accessed := none
    metadata := metadata }

/-- The `for existing in self.data["facts"]` loop of `save_fact`: the scan
stops at the first existing entry similar to the candidate; if the candidate
text is strictly longer, that entry's `fact`/`timestamp`/`metadata` are
overwritten in place; either way the loop returns `False`.  When no entry is
similar, a fresh entry is appended and `True` is returned. -/
def saveFactGo (fact category : String) (metadata : Option FactMeta) (now : Nat)
    (fact_lower : String) : List FactEntry → List FactEntry × Bool
  | [] => ([mkFactEntry fact category now metadata], true)
  | existing :: rest =>
    if are_similar fact_lower (pyStrip (pyLower existing.fact)) then
      if existing.fact.length < fact.length then
        ({ existing with fact := fact, timestamp := now, metadata := metadata } :: rest,
          false)
      else (existing :: rest, false)
    else
      let step := saveFactGo fact category metadata now fact_lower rest
      (existing :: step.1, step.2)

/-- `JSONMemoryBackend.save_fact(fact, category, metadata)`.  Returns the new
store state together with the Python return value (`True` iff the fact was
newly appended). -/
def save_fact (data : BackendData) (fact category : String)
    (metadata : Option FactMeta) (now : Nat) : BackendData × Bool :=
  let fact_lower := pyStrip (pyLower fact)
  let step := saveFactGo fact category metadata now fact_lower data.facts
  (⟨step.1⟩, step.2)

/-- `JSONMemoryBackend.get_all_facts()`. -/
def get_all_facts (data : BackendData) : List FactEntry :=
  data.facts

/-! ## `ModularMemorySystem.learn_from_conversation`

An extraction engine is modelled by its class name (`type(engine).__name__`)
together with its `extract_facts` method; a raised exception is modelled by
`Except.error`.  A candidate fact is the dictionary an engine returns;
`.get` defaults are modelled by `Option.getD`.  The optional
`SemanticContextRetriever` is modelled as an optional list of indexed
`(fact, metadata)` documents (`add_fact` appends; the chromadb collection
itself performs no computation the claims depend on). -/

structure Candidate where
  fact : Option String
  category : Option String
  confidence : Option ℚ
deriving DecidableEq, Repr

structure Engine where
  name : String
  extract : String → Except String (List Candidate)

/-- One `collection.add` document of `SemanticContextRetriever.add_fact`:
the fact text plus the metadata passed by `learn_from_conversation`. -/
structure SemDoc where
  fact : String
  category : String
  confidence : ℚ
  timestamp : Nat
deriving DecidableEq, Repr

/-- The state touched by `learn_from_conversation`: the storage backend,
the optional semantic index, and the session stats
(`total_learned`, `by_category`, `by_engine`). -/
structure LearnState where
  data : BackendData
  semantic : Option (List SemDoc)
  total_learned : Nat
  by_category : List (String × Nat)
  by_engine : List (String × Nat)
deriving DecidableEq, Repr

/-- Python `d[k] = d.get(k, 0) + 1` on a counter dictionary. -/
def bumpCounter (k : String) : List (String × Nat) → List (String × Nat)
  | [] => [(k, 1)]
  | (k', v) :: rest =>
    if k' = k then (k', v + 1) :: rest else (k', v) :: bumpCounter k rest

/-- Sum of all counter values of a stats dictionary. -/
def sumCounters (m : List (String × Nat)) : Nat :=
  (m.map (·.2)).sum

/-- One recorded invocation of `self.storage.save_fact(fact, category, {...})`
(a ghost trace used to state which candidates reach the store). -/
structure SaveCall where
  fact : String
  category : String
  metadata : FactMeta
deriving DecidableEq, Repr

/-- `user_message[:100]`. -/
def truncate100 (s : String) : String :=
  pyTake 100 s

/-- The body of the `for fact_data in facts` loop of
`learn_from_conversation`, threading `(state, learned_count, ghost trace)`.
A candidate below the 0.85 confidence gate is skipped; otherwise
`storage.save_fact` is called, and on a `True` return the semantic index and
the session stats are updated and `learned_count` is incremented. -/
def processCandidate (engineName user_message : String) (now : Nat)
    (acc : LearnState × Nat × List SaveCall) (fact_data : Candidate) :
    LearnState × Nat × List SaveCall :=
  let (st, learned_count, calls) := acc
  let fact := fact_data.fact.getD ""
  let category := fact_data.category.getD "general"
  let confidence := fact_data.confidence.getD (mkRat 8 10)
  if confidence < mkRat 85 100 then acc
  else
    let md : FactMeta :=
      { confidence := confidence
        engine := engineName
        learned_from := truncate100 user_message }
    let saved := save_fact st.data fact category (some md) now
    let calls' := calls ++ [⟨fact, category, md⟩]
    if saved.2 then
      ({ data := saved.1
         semantic := st.semantic.map (fun idx =>
           idx ++ [⟨fact, category, confidence, now⟩])
         total_learned := st.total_learned + 1
         by_category := bumpCounter category st.by_category
         by_engine := bumpCounter engineName st.by_engine },
        learned_count + 1, calls')
    else ({ st with data := saved.1 }, learned_count, calls')

/-- The `for engine in self.learning_engines` loop body: `extract_facts`
raising an exception aborts this engine's iteration (`except ... continue`)
leaving the state untouched; a successful extraction processes each
candidate in order. -/
def runEngine (user_message : String) (now : Nat)
    (acc : LearnState × Nat × List SaveCall) (engine : Engine) :
    LearnState × Nat × List SaveCall :=
  match engine.extract user_message with
  | .error _ => acc
  | .ok facts => facts.foldl (processCandidate engine.name user_message now) acc

/-- `ModularMemorySystem.learn_from_conversation(user_message)`: runs every
configured engine and returns the final state, the returned
`learned_count`, and the ghost trace of `save_fact` invocations made during
the call. -/
def learn_from_conversation (engines : List Engine) (st : LearnState)
    (user_message : String) (now : Nat) : LearnState × Nat × List SaveCall :=
  engines.foldl (runEngine user_message now) (st, 0, [])

/-- `ModularMemorySystem.remember_fact_manually(fact, category)`. -/
def remember_fact_manually (data : BackendData) (fact : String)
    (category : String) (now : Nat) : BackendData × Bool :=
  save_fact data fact category none now

/-- The candidate-level confidence gate of `learn_from_conversation`:
a candidate is passed on to storage exactly when the guard
`if confidence < 0.85: continue` does not fire. -/
def passesGate (c : Candidate) : Bool :=
  !(c.confidence.getD (mkRat 8 10) < mkRat 85 100)

/-- The `save_fact` arguments `learn_from_conversation` builds for a
candidate extracted by the engine named `engineName`. -/
def toSaveCall (engineName user_message : String) (c : Candidate) : SaveCall :=
  { fact := c.fact.getD ""
    category := c.category.getD "general"
    metadata :=
      { confidence := c.confidence.getD (mkRat 8 10)
        engine := engineName
        learned_from := truncate100 user_message } }

/-- The candidates each engine contributes to storage on one utterance:
an erroring engine contributes nothing, a successful engine contributes
its gate-passing candidates in order. -/
def expectedSaves (user_message : String) (engines : List Engine) :
    List SaveCall :=
  (engines.map (fun engine =>
    match engine.extract user_message with
    | .error _ => []
    | .ok facts =>
      (facts.filter passesGate).map (toSaveCall engine.name user_message))).flatten

/-! ## `JSONMemoryBackend.get_facts` -/

/-- Python `facts[-limit:]`.  Note that for `limit = 0` the slice `[-0:]`
is `[0:]`, i.e. the whole list. -/
def pyLastSlice (limit : Nat) (l : List FactEntry) : List FactEntry :=
  if limit = 0 then l else l.drop (l.length - limit)

/-- The fixed synonym table (`keyword_map`). -/
def keyword_map : List (String × List String) :=
  [("birthday", ["birthday", "born", "birth date", "age", "bday"]),
   ("favorite", ["favorite", "favourite", "fav", "like", "prefer", "love"]),
   ("pizza", ["pizza", "pie"]),
   ("food", ["food", "eat", "meal", "dish"]),
   ("game", ["game", "gaming", "play"]),
   ("live", ["live", "from", "location", "city"]),
   ("name", ["name", "called"]),
   ("dog", ["dog", "puppy", "pet"]),
   ("cat", ["cat", "kitten", "pet"])]

/-- `expanded_keywords`: the query words together with the synonym lists of
every query word present in `keyword_map`.  The Python value is a `set`;
it is only ever consumed through membership tests (`any(k in ... )`), so a
list with duplicates is an equivalent model. -/
def expandKeywords (query_words : List String) : List String :=
  query_words ++
    (query_words.filterMap (fun w =>
      (keyword_map.find? (fun e => e.1 = w)).map (·.2))).flatten

/-- The in-place mutation performed on a matched fact:
`fact["access_count"] += 1; fact["last_accessed"] = now`. -/
def bumpAccess (now : Nat) (e : FactEntry) : FactEntry :=
  { e with access_count := e.access_count + 1, last_accessed := some now }

/-- One iteration of the `for fact in self.data["facts"]` loop of
`get_facts`, accumulating the rewritten facts list and the `relevant` list.
A fact whose text contains an expanded keyword is bumped; it lands at the
front of `relevant` (`relevant.insert(0, fact)`) when the
identity/birthday priority branch fires, otherwise at the back.  (When the
outer identity condition holds but no keyword matches, Python falls
through to the second occurrence of the same keyword test, which then also
fails; the fall-through is collapsed here since the test is pure.) -/
def gfStep (expanded : List String) (query_lower : String) (now : Nat)
    (acc : List FactEntry × List FactEntry) (e : FactEntry) :
    List FactEntry × List FactEntry :=
  if e.category = "identity" ∧
      (["birthday", "born", "age"].any (fun k => containsSub k query_lower))
      ∧ (expanded.any (fun k => containsSub k (pyLower e.fact))) then
    (acc.1 ++ [bumpAccess now e], bumpAccess now e :: acc.2)
  else if expanded.any (fun k => containsSub k (pyLower e.fact)) then
    (acc.1 ++ [bumpAccess now e], acc.2 ++ [bumpAccess now e])
  else (acc.1 ++ [e], acc.2)

/-- The descending sort key comparison of
`relevant.sort(key=lambda x: (x.get("access_count", 0), x["timestamp"]), reverse=True)`:
`y` may stay in front of `x` iff `x`'s key is not strictly greater. -/
def keyLe (x y : FactEntry) : Prop :=
  x.access_count < y.access_count ∨
    (x.access_count = y.access_count ∧ x.timestamp ≤ y.timestamp)

instance (x y : FactEntry) : Decidable (keyLe x y) := by
  unfold keyLe; infer_instance

/-- Stable insertion used to model Python's stable descending sort: the new
element `x` (later in the original order) moves past `y` only when its key
is strictly greater. -/
def insertDesc (x : FactEntry) : List FactEntry → List FactEntry
  | [] => [x]
  | y :: ys => if keyLe x y then y :: insertDesc x ys else x :: y :: ys

/-- Python `list.sort(key=..., reverse=True)` (Timsort is stable; insertion
sort with the same stability policy produces the identical list). -/
def pySortDesc (l : List FactEntry) : List FactEntry :=
  l.foldl (fun acc x => insertDesc x acc) []

/-- `JSONMemoryBackend.get_facts(query, limit)`.  Returns the new store
state and the returned list.  `query=None` and `query=""` are both falsy in
`if not query`; the model uses the empty string for both. -/
def get_facts (data : BackendData) (query : String) (limit : Nat) (now : Nat) :
    BackendData × List FactEntry :=
  if query = "" then (data, pyLastSlice limit data.facts)
  else
    let query_lower := pyLower query
    let query_words := pySplitWs query_lower
    let expanded := expandKeywords query_words
    let scan := data.facts.foldl (gfStep expanded query_lower now) ([], [])
    let relevant := pySortDesc scan.2
    (⟨scan.1⟩, if relevant = [] then [] else relevant.take limit)

/-! ## `ModularMemorySystem.export_training_data`

The exported file is a JSON document; `json.dump` followed by `json.load`
reproduces the same document (objects keep their key insertion order, and
all values here are strings, numbers, `null` and nested objects/arrays),
so the written file is modelled by its document tree `JDoc`.  Numbers are
split by the Python kind that produces them (`int` timestamps/counters
versus `float` confidences). -/

inductive JDoc where
  | null : JDoc
  | str : String → JDoc
  | nat : Nat → JDoc
  | rat : ℚ → JDoc
  | arr : List JDoc → JDoc
  | obj : List (String × JDoc) → JDoc
deriving Repr

/-- The serialization of one stored fact entry: the dictionary literally
held in `self.data["facts"]`. -/
def factToJson (e : FactEntry) : JDoc :=
  .obj
    [("fact", .str e.fact),
     ("category", .str e.category),
     ("timestamp", .nat e.timestamp),
     ("access_count", .nat e.access_count),
     ("last_accessed",
       match e.last_accessed with
       | none => .null
       | some t => .nat t),
     ("metadata",
       match e.metadata with
       | none => .obj []
       | some m =>
         .obj [("confidence", .rat m.confidence),
               ("engine", .str m.engine),
               ("learned_from", .str m.learned_from)])]

/-- Decoding one parsed fact dictionary back into a `FactEntry`;
`none` on any shape the exporter never writes. -/
def factOfJson : JDoc → Option FactEntry
  | .obj
      [("fact", .str fact),
       ("category", .str category),
       ("timestamp", .nat timestamp),
       ("access_count", .nat access_count),
       ("last_accessed", la),
       ("metadata", md)] => do
    let last_accessed ←
      match la with
      | .null => some none
      | .nat t => some (some t)
      | _ => none
    let metadata ←
      match md with
      | .obj [] => some none
      | .obj [("confidence", .rat confidence),
              ("engine", .str engine),
              ("learned_from", .str learned_from)] =>
        some (some ⟨confidence, engine, learned_from⟩)
      | _ => none
    some ⟨fact, category, timestamp, access_count, last_accessed, metadata⟩
  | _ => none

/-- `ModularMemorySystem.export_training_data(filepath)`: the document
written to the export file. -/
def export_training_data (data : BackendData) (now : Nat) : JDoc :=
  .obj
    [("metadata",
       .obj [("exported", .nat now),
             ("total_facts", .nat (get_all_facts data).length),
             ("format", .str "jarvis_v1")]),
     ("facts", .arr ((get_all_facts data).map factToJson))]

/-- Parsing the written export document and reading back its `facts`
array, decoding every element. -/
def parseExportedFacts (j : JDoc) : Option (List FactEntry) :=
  match j with
  | .obj fields =>
    match fields.find? (fun f => f.1 = "facts") with
    | some (_, .arr xs) => xs.mapM factOfJson
    | _ => none
  | _ => none

/-! ## A matcher for the fixed regex templates of `PatternBasedLearning`

Every pattern of `PatternBasedLearning.extract_facts` is a concatenation
of case-insensitive literals, alternations of literals, character classes
and bounded greedy repetitions, with a single capture group.  The embedding
represents each pattern by such a sequence and implements `re.search(...,
re.IGNORECASE)` directly: positions are tried left to right, repetitions
are greedy with backtracking, alternatives are tried in written order.
Under `re.IGNORECASE` the classes `[A-Z]` and `[a-z]` both match every
(ASCII) letter. -/

inductive CClass where
  | alpha    -- `[A-Z]` / `[a-z]` under `re.IGNORECASE`
  | digit    -- `\d`
  | ws       -- `\s`
  | alphaWs  -- `[a-z\s]` under `re.IGNORECASE`
  | notPunct -- `[^.!?,]`
deriving DecidableEq, Repr

def classMatch : CClass → Char → Bool
  | .alpha, c => c.isAlpha
  | .digit, c => c.isDigit
  | .ws, c => isWsChar c
  | .alphaWs, c => c.isAlpha || isWsChar c
  | .notPunct, c => !(c = '.' || c = '!' || c = '?' || c = ',')

/-- A simple (non-nested) pattern element. -/
inductive SElem where
  | lit : String → SElem                    -- case-insensitive literal
  | alts : List String → SElem              -- `(?:l1|l2|...)` over literals
  | cls : CClass → SElem                    -- a single class character
  | rep : CClass → Nat → Option Nat → SElem -- greedy `{lo,hi}` repetition
deriving Repr

/-- A pattern element: a simple element, or a greedy optional group
`(?:...)?` over simple elements (the only nesting the source's patterns
use). -/
inductive RElem where
  | simple : SElem → RElem
  | opt : List SElem → RElem
deriving Repr

/-- Case-insensitively strip the literal `p` from the front of `s`. -/
def ciStrip : List Char → List Char → Option (List Char)
  | [], s => some s
  | _ :: _, [] => none
  | p :: ps, c :: cs => if p.toLower = c.toLower then ciStrip ps cs else none

/-- The candidate repetition counts of a greedy `{lo,hi}` repetition over a
class that matches the first `maxRun` characters: `cap, cap-1, ..., lo`. -/
def greedyCounts (lo cap : Nat) : List Nat :=
  (List.range (cap + 1 - lo)).map (fun t => cap - t)

/-- The ways one simple element can consume a front segment of `s`: the
possible remainders in the priority order `re` explores them (greedy
repetitions longest first, alternatives in written order). -/
def matchOneS : SElem → List Char → List (List Char)
  | .lit p, s =>
    match ciStrip p.data s with
    | some s' => [s']
    | none => []
  | .alts ps, s => ps.filterMap (fun p => ciStrip p.data s)
  | .cls c, s =>
    match s with
    | [] => []
    | ch :: s' => if classMatch c ch then [s'] else []
  | .rep c lo hi, s =>
    let maxRun := (s.takeWhile (classMatch c)).length
    let cap := match hi with | none => maxRun | some h => min maxRun h
    (greedyCounts lo cap).map (fun j => s.drop j)

/-- All remainders after a sequence of simple elements, in priority
order (depth-first enumeration is exactly the backtracking order). -/
def matchSeqS : List SElem → List Char → List (List Char)
  | [], s => [s]
  | e :: rest, s => (matchOneS e s).flatMap (matchSeqS rest)

/-- All remainders after a sequence of pattern elements, in priority
order; a greedy optional group tries its body first, then skips it. -/
def matchSeqR : List RElem → List Char → List (List Char)
  | [], s => [s]
  | .simple e :: rest, s => (matchOneS e s).flatMap (matchSeqR rest)
  | .opt seq :: rest, s => (matchSeqS seq s ++ [s]).flatMap (matchSeqR rest)

/-- A pattern with one capture group: `pre ( grp ) post`. -/
structure RPattern where
  pre : List RElem
  grp : List RElem
  post : List RElem

/-- Match the pattern at the start of `s`, returning the text consumed by
the capture group of the first match in priority order — the match
backtracking `re` finds. -/
def matchAt (p : RPattern) (s : List Char) : Option (List Char) :=
  ((matchSeqR p.pre s).flatMap (fun s1 =>
    (matchSeqR p.grp s1).flatMap (fun s2 =>
      (matchSeqR p.post s2).map (fun _ =>
        s1.take (s1.length - s2.length))))).head?

/-- `re.search`: try each start position left to right. -/
def reSearchAux (p : RPattern) : List Char → Option (List Char)
  | [] => matchAt p []
  | c :: t =>
    match matchAt p (c :: t) with
    | some g => some g
    | none => reSearchAux p t

/-- `re.search(pattern, text, re.IGNORECASE)`, returning `group(1)`. -/
def reSearch (p : RPattern) (text : String) : Option String :=
  (reSearchAux p text.data).map String.mk

/-! ## `PatternBasedLearning.extract_facts` -/

/-- The `trivial` phrase list of `PatternBasedLearning.extract_facts`. -/
def patternTrivial : List String :=
  ["i\x27m fine", "i\x27m okay", "i\x27m good", "i\x27m alright",
   "sounds good", "that\x27s fine", "no problem", "sure",
   "yes", "no", "maybe", "thanks", "okay", "ok", "cool"]

/-- The interrogative words of the question guard in
`PatternBasedLearning.extract_facts`. -/
def patternQuestionWords : List String :=
  ["what", "where", "when", "who", "why", "how", "is", "are", "do", "does"]

/-- Shorthand constructors for simple pattern elements. -/
def rlit (s : String) : RElem := .simple (.lit s)

def ralts (ps : List String) : RElem := .simple (.alts ps)

def rcls (c : CClass) : RElem := .simple (.cls c)

def rrep (c : CClass) (lo : Nat) (hi : Option Nat) : RElem :=
  .simple (.rep c lo hi)

/-- `[A-Z][a-z]+` (one letter followed by one or more letters under
`re.IGNORECASE`), as simple elements. -/
def wordElemsS : List SElem :=
  [.cls .alpha, .rep .alpha 1 none]

/-- `[A-Z][a-z]+` as pattern elements. -/
def wordElems : List RElem :=
  wordElemsS.map .simple

/-- `([A-Z][a-z]+ \d{1,2},? \d{4})` — the full-date capture group. -/
def fullDateGrp : List RElem :=
  wordElems ++ [rlit " ", rrep .digit 1 (some 2), .opt [.lit ","],
    rlit " ", rrep .digit 4 (some 4)]

/-- `r"my birthday is ([A-Z][a-z]+ \d{1,2},? \d{4})"` -/
def reMyBirthday : RPattern :=
  ⟨[rlit "my birthday is "], fullDateGrp, []⟩

/-- `r"i was born (?:on )?([A-Z][a-z]+ \d{1,2},? \d{4})"` -/
def reIWasBorn : RPattern :=
  ⟨[rlit "i was born ", .opt [.lit "on "]], fullDateGrp, []⟩

/-- `r"my (?:dog|cat|pet)(?:'s)? birthday is ([A-Z][a-z]+ \d{1,2})"` -/
def rePetBirthday : RPattern :=
  ⟨[rlit "my ", ralts ["dog", "cat", "pet"], .opt [.lit "\x27s"],
     rlit " birthday is "],
   wordElems ++ [rlit " ", rrep .digit 1 (some 2)], []⟩

/-- `r"(?:my name is|i'm|i am|call me)\s+([A-Z][a-z]+)"` -/
def reName : RPattern :=
  ⟨[ralts ["my name is", "i\x27m", "i am", "call me"], rrep .ws 1 none],
   wordElems, []⟩

/-- `([A-Z][a-z]+(?:\s+[A-Z][a-z]+)?)` — the one-or-two-word place capture. -/
def placeGrp : List RElem :=
  wordElems ++ [.opt ([.rep .ws 1 none] ++ wordElemsS)]

/-- `r"i live in ([A-Z][a-z]+(?:\s+[A-Z][a-z]+)?)"` -/
def reILiveIn : RPattern :=
  ⟨[rlit "i live in "], placeGrp, []⟩

/-- `r"i'm from ([A-Z][a-z]+(?:\s+[A-Z][a-z]+)?)"` -/
def reImFrom : RPattern :=
  ⟨[rlit "i\x27m from "], placeGrp, []⟩

/-- `r"i (?:really love|absolutely love|love)\s+([a-z\s]{3,30})(?:\.|!|,)"` -/
def reILove : RPattern :=
  ⟨[rlit "i ", ralts ["really love", "absolutely love", "love"],
     rrep .ws 1 none],
   [rrep .alphaWs 3 (some 30)],
   [ralts [".", "!", ","]]⟩

/-- `r"my favorite\s+(?:food|game|movie|book|color)\s+is\s+([^.!?,]+)"` -/
def reMyFavorite : RPattern :=
  ⟨[rlit "my favorite", rrep .ws 1 none,
     ralts ["food", "game", "movie", "book", "color"],
     rrep .ws 1 none, rlit "is", rrep .ws 1 none],
   [rrep .notPunct 1 none], []⟩

/-- `birthday_patterns`: `(regex, category, confidence, fact_template)`. -/
def birthday_patterns : List (RPattern × String × ℚ × (String → String)) :=
  [(reMyBirthday, "identity", mkRat 95 100,
     fun d => "User\x27s birthday is " ++ d),
   (reIWasBorn, "identity", mkRat 95 100,
     fun d => "User\x27s birthday is " ++ d),
   (rePetBirthday, "relationships", mkRat 90 100,
     fun d => "User\x27s pet\x27s birthday is " ++ d)]

/-- `name_patterns`. -/
def name_patterns : List (RPattern × String × ℚ × (String → String)) :=
  [(reName, "identity", mkRat 90 100, fun n => "User\x27s name is " ++ n)]

/-- `location_patterns`. -/
def location_patterns : List (RPattern × String × ℚ × (String → String)) :=
  [(reILiveIn, "identity", mkRat 88 100, fun l => "User lives in " ++ l),
   (reImFrom, "identity", mkRat 88 100, fun l => "User is from " ++ l)]

/-- `strong_preference_patterns`. -/
def strong_preference_patterns :
    List (RPattern × String × ℚ × (String → String)) :=
  [(reILove, "preferences", mkRat 88 100, fun t => "User loves " ++ t),
   (reMyFavorite, "preferences", mkRat 92 100,
     fun t => "User\x27s favorite is " ++ t)]

/-- Shared loop body for the birthday and location pattern groups: on a
match, `group(1)` is stripped and substituted into the fact template. -/
def applyPattern (text : String)
    (entry : RPattern × String × ℚ × (String → String)) : Option Candidate :=
  (reSearch entry.1 text).map (fun g =>
    ⟨some (entry.2.2.2 (pyStrip g)), some entry.2.1, some entry.2.2.1⟩)

/-- The name pattern loop, with its guard
`if name not in ['Fine', 'Okay', 'Good', 'Alright']`. -/
def applyNamePattern (text : String)
    (entry : RPattern × String × ℚ × (String → String)) : Option Candidate :=
  (reSearch entry.1 text).bind (fun g =>
    let name := pyStrip g
    if name ∈ ["Fine", "Okay", "Good", "Alright"] then none
    else some ⟨some (entry.2.2.2 name), some entry.2.1, some entry.2.2.1⟩)

/-- The strong-preference pattern loop, with its guard
`if len(thing) > 3 and thing not in trivial`. -/
def applyPreferencePattern (text : String)
    (entry : RPattern × String × ℚ × (String → String)) : Option Candidate :=
  (reSearch entry.1 text).bind (fun g =>
    let thing := pyStrip g
    if 3 < thing.length ∧ thing ∉ patternTrivial then
      some ⟨some (entry.2.2.2 thing), some entry.2.1, some entry.2.2.1⟩
    else none)

/-- `PatternBasedLearning.extract_facts(text)`.  Note: unlike the LLM
engine, this engine has no minimum word-count guard. -/
def pattern_extract_facts (text : String) : List Candidate :=
  let text_lower := pyLower text
  if patternTrivial.any (fun phrase => containsSub phrase text_lower) then []
  else if patternQuestionWords.any
      (fun q => pyStartsWith q (pyStrip text_lower)) then []
  else
    (birthday_patterns.filterMap (applyPattern text)) ++
    (name_patterns.filterMap (applyNamePattern text)) ++
    (location_patterns.filterMap (applyPattern text)) ++
    (strong_preference_patterns.filterMap (applyPreferencePattern text))

/-! ## `LLMBasedLearning.extract_facts` -/

/-- `LLMBasedLearning.ignore_phrases`. -/
def llmIgnorePhrases : List String :=
  ["i\x27m fine", "i\x27m okay", "i\x27m good", "i\x27m alright",
   "sounds good", "that\x27s fine", "no problem", "sure",
   "yes", "no", "maybe", "thanks", "thank you",
   "okay", "ok", "cool", "nice", "great",
   "i see", "got it", "understood", "alright"]

/-- The interrogative words of the question guard in
`LLMBasedLearning.extract_facts`. -/
def llmQuestionWords : List String :=
  ["what", "where", "when", "who", "why", "how", "is", "are", "do", "does",
   "can", "could", "would"]

/-- The per-candidate filter of `LLMBasedLearning.extract_facts`: drop
candidates below confidence 0.85 (`f.get('confidence', 0)`), containing a
trivial phrase, or whose stripped lowered text is shorter than 10
characters. -/
def llmValidFact (f : Candidate) : Bool :=
  let confidence := f.confidence.getD 0
  let fact_text := pyLower (pyStrip (f.fact.getD ""))
  if confidence < mkRat 85 100 then false
  else if llmIgnorePhrases.any (fun phrase => containsSub phrase fact_text) then
    false
  else if fact_text.length < 10 then false
  else true

/-- `LLMBasedLearning.extract_facts(text)`.  The call to
`self.llm.generate`, the `re.search(r'\[.*?\]', ...)` JSON extraction and
`json.loads` are modelled by the oracle `llm`, which returns the parsed
candidate list of the response to `text`, or `none` when no JSON array is
found, parsing fails or the generate call raises (all of which make the
Python function return `[]`). -/
def llm_extract_facts (llm : String → Option (List Candidate))
    (text : String) : List Candidate :=
  if (pySplitWs text).length < 3 then []
  else
    let text_lower := pyStrip (pyLower text)
    if llmIgnorePhrases.any (fun phrase => containsSub phrase text_lower) then []
    else if llmQuestionWords.any (fun q => pyStartsWith q text_lower) then []
    else
      match llm text with
      | none => []
      | some facts => facts.filter llmValidFact

/-! ## Concrete fixtures used by witnesses and counterexamples -/

/-- The session state right after `ModularMemorySystem.__init__` with an
empty store and no semantic retriever. -/
def initState : LearnState :=
  { data := ⟨[]⟩
    semantic := none
    total_learned := 0
    by_category := []
    by_engine := [] }

/-- A stub engine whose extraction yields one candidate with confidence
0.80. -/
def lowConfEngine : Engine :=
  ⟨"PatternBasedLearning", fun _ =>
    .ok [⟨some "User likes green tea", some "preferences", some (mkRat 80 100)⟩]⟩

/-- A stub engine whose extraction yields one candidate with confidence
0.90. -/
def highConfEngine : Engine :=
  ⟨"PatternBasedLearning", fun _ =>
    .ok [⟨some "User likes green tea", some "preferences", some (mkRat 90 100)⟩]⟩

/-- A stub engine whose extraction yields one candidate with confidence
1.5, outside [0,1]. -/
def overConfEngine : Engine :=
  ⟨"LLMBasedLearning", fun _ =>
    .ok [⟨some "User drinks espresso daily", some "routines", some (mkRat 3 2)⟩]⟩

/-- A stub engine whose extraction yields one candidate with the
unrecognized category string `"banana"`. -/
def bananaEngine : Engine :=
  ⟨"LLMBasedLearning", fun _ =>
    .ok [⟨some "User collects vintage maps", some "banana", some (mkRat 9 10)⟩]⟩

/-- A stub engine whose extraction raises. -/
def errorEngine : Engine :=
  ⟨"LLMBasedLearning", fun _ => .error "connection refused"⟩

/-! # Theorems -/

/-! ## Helper lemmas about `learn_from_conversation` -/

theorem foldl_processCandidate_calls (engineName msg : String) (now : Nat)
    (facts : List Candidate) :
    ∀ acc : LearnState × Nat × List SaveCall,
      (facts.foldl (processCandidate engineName msg now) acc).2.2
        = acc.2.2 ++ (facts.filter passesGate).map (toSaveCall engineName msg) := by
  induction facts with
  | nil => intro acc; simp
  | cons c cs ih =>
    intro acc
    obtain ⟨st, k, calls⟩ := acc
    by_cases h : c.confidence.getD (mkRat 8 10) < mkRat 85 100
    · simp only [List.foldl_cons, processCandidate, if_pos h]
      rw [ih]
      simp [passesGate, h]
    · simp only [List.foldl_cons, processCandidate, if_neg h]
      cases hs : (save_fact st.data (c.fact.getD "") (c.category.getD "general")
          (some { confidence := c.confidence.getD (mkRat 8 10)
                  engine := engineName
                  learned_from := truncate100 msg }) now).2 <;>
        simp only [hs, Bool.false_eq_true, if_true, if_false, ite_false, ite_true] <;>
        rw [ih] <;>
        simp [passesGate, h, toSaveCall]

theorem learn_calls (msg : String) (now : Nat) :
    ∀ (engines : List Engine) (acc : LearnState × Nat × List SaveCall),
      (engines.foldl (runEngine msg now) acc).2.2
        = acc.2.2 ++ expectedSaves msg engines := by
  intro engines
  induction engines with
  | nil => intro acc; simp [expectedSaves]
  | cons engine rest ih =>
    intro acc
    simp only [List.foldl_cons, runEngine]
    cases he : engine.extract msg with
    | error e =>
      rw [ih]
      simp [expectedSaves, he]
    | ok facts =>
      rw [ih, foldl_processCandidate_calls]
      simp [expectedSaves, he]

theorem sumCounters_bumpCounter (k : String) (m : List (String × Nat)) :
    sumCounters (bumpCounter k m) = sumCounters m + 1 := by
  induction m with
  | nil => simp [bumpCounter, sumCounters]
  | cons p rest ih =>
    obtain ⟨k', v⟩ := p
    by_cases h : k' = k <;>
      simp [bumpCounter, h, sumCounters] at ih ⊢ <;> omega

theorem processCandidate_stats_step (engineName msg : String) (now : Nat)
    (acc : LearnState × Nat × List SaveCall) (c : Candidate) :
    sumCounters (processCandidate engineName msg now acc c).1.by_category
        + acc.2.1
      = sumCounters acc.1.by_category
        + (processCandidate engineName msg now acc c).2.1 := by
  obtain ⟨st, k, calls⟩ := acc
  unfold processCandidate
  by_cases h : c.confidence.getD (mkRat 8 10) < mkRat 85 100
  · simp [h]
  · simp only [if_neg h]
    split
    · simp [sumCounters_bumpCounter]
      omega
    · simp

theorem foldl_processCandidate_stats (engineName msg : String) (now : Nat)
    (facts : List Candidate) :
    ∀ acc : LearnState × Nat × List SaveCall,
      sumCounters
          ((facts.foldl (processCandidate engineName msg now) acc).1.by_category)
          + acc.2.1
        = sumCounters acc.1.by_category
          + (facts.foldl (processCandidate engineName msg now) acc).2.1 := by
  induction facts with
  | nil => intro acc; simp
  | cons c cs ih =>
    intro acc
    rw [List.foldl_cons]
    have h1 := ih (processCandidate engineName msg now acc c)
    have h2 := processCandidate_stats_step engineName msg now acc c
    omega

theorem runEngine_stats_step (msg : String) (now : Nat)
    (acc : LearnState × Nat × List SaveCall) (engine : Engine) :
    sumCounters (runEngine msg now acc engine).1.by_category + acc.2.1
      = sumCounters acc.1.by_category + (runEngine msg now acc engine).2.1 := by
  unfold runEngine
  cases he : engine.extract msg with
  | error e => simp
  | ok facts => exact foldl_processCandidate_stats engine.name msg now facts acc

theorem foldl_runEngine_stats (msg : String) (now : Nat) :
    ∀ (engines : List Engine) (acc : LearnState × Nat × List SaveCall),
      sumCounters ((engines.foldl (runEngine msg now) acc).1.by_category)
          + acc.2.1
        = sumCounters acc.1.by_category
          + (engines.foldl (runEngine msg now) acc).2.1 := by
  intro engines
  induction engines with
  | nil => intro acc; simp
  | cons engine rest ih =>
    intro acc
    rw [List.foldl_cons]
    have h1 := ih (runEngine msg now acc engine)
    have h2 := runEngine_stats_step msg now acc engine
    omega

/-! ## C1 — the 0.85 confidence gate of `learn_from_conversation` -/

/-- **C1.** For every utterance and every candidate fact produced by an
extraction engine, `learn_from_conversation` passes the candidate to
`storage.save_fact` if and only if the candidate's confidence is ≥ 0.85:
the trace of `save_fact` invocations of a call is exactly the
gate-filtered candidate output of the engines.  In particular (second and
third conjuncts), a candidate with confidence 0.80 is never passed to
storage and leaves the store untouched, while one with confidence 0.90 is
persisted. -/
theorem confidence_gate :
    (∀ (engines : List Engine) (st : LearnState) (msg : String) (now : Nat),
      (learn_from_conversation engines st msg now).2.2
        = expectedSaves msg engines) ∧
    ((learn_from_conversation [lowConfEngine] initState "i like tea" 0).2.2 = []
      ∧ (learn_from_conversation [lowConfEngine] initState "i like tea" 0).1.data
          = ⟨[]⟩) ∧
    ((learn_from_conversation [highConfEngine] initState "i like tea" 0).2.2
        = [⟨"User likes green tea", "preferences",
            ⟨mkRat 90 100, "PatternBasedLearning", "i like tea"⟩⟩]
      ∧ (learn_from_conversation [highConfEngine] initState
            "i like tea" 0).1.data.facts.map (fun e => e.fact)
          = ["User likes green tea"]) := by
  refine ⟨fun engines st msg now => ?_, by decide, by decide⟩
  unfold learn_from_conversation
  rw [learn_calls]
  simp

/-! ## C7 — `learned_count` equals the session category-counter increments -/

/-- **C7.** For every call to `learn_from_conversation`, the returned
`learned_count` equals the total number of increments applied to the
per-category session counters `stats['by_category']` during the call:
each increment adds exactly 1, so the post-call counter total is the
pre-call total plus the returned count. -/
theorem stats_consistency (engines : List Engine) (st : LearnState)
    (msg : String) (now : Nat) :
    sumCounters (learn_from_conversation engines st msg now).1.by_category
      = sumCounters st.by_category
        + (learn_from_conversation engines st msg now).2.1 := by
  have h := foldl_runEngine_stats msg now engines (st, 0, [])
  simp only at h
  unfold learn_from_conversation
  omega

/-! ## C6 — an engine error never blocks the other engines -/

/-- **C6.** If one configured engine's `extract_facts` raises on the given
utterance, `learn_from_conversation` catches the error and the whole call
returns exactly what it would return had that engine produced no facts:
final state, learned count, and storage calls are all identical. -/
theorem engine_error_skipped (pre post : List Engine) (engine : Engine)
    (err : String) (st : LearnState) (msg : String) (now : Nat)
    (h : engine.extract msg = .error err) :
    learn_from_conversation (pre ++ engine :: post) st msg now
      = learn_from_conversation
          (pre ++ ⟨engine.name, fun _ => .ok []⟩ :: post) st msg now := by
  unfold learn_from_conversation
  rw [List.foldl_append, List.foldl_append, List.foldl_cons, List.foldl_cons]
  congr 1
  unfold runEngine
  rw [h]
  rfl

/-- Witness for C6: a concrete erroring engine alongside a working engine;
the facts of the working engine are learned either way. -/
theorem engine_error_skipped_witness :
    learn_from_conversation [errorEngine, highConfEngine] initState
        "i like tea" 0
      = learn_from_conversation
          [⟨"LLMBasedLearning", fun _ => .ok []⟩, highConfEngine] initState
          "i like tea" 0 :=
  engine_error_skipped [] [highConfEngine] errorEngine "connection refused"
    initState "i like tea" 0 rfl

/-! ## C4 — stored confidences are *not* clamped to [0,1] -/

/-- **C4, counterexample.**  The claim "any candidate confidence outside
[0,1] is clamped into that interval before the fact is written" is false:
a candidate with confidence 1.5 passes the `>= 0.85` gate and is stored
with confidence 1.5, which is greater than 1 — no clamping code exists. -/
theorem confidence_not_clamped_counterexample :
    ((learn_from_conversation [overConfEngine] initState
          "my espresso habit" 0).1.data.facts.map
        (fun e => e.metadata.map (fun m => m.confidence)))
      = [some (mkRat 3 2)] ∧ ¬ (mkRat 3 2 ≤ 1) := by
  decide

/-- **C4, amended.**  No clamping is performed: every fact that reaches
storage carries the candidate's confidence unchanged, and the only bound
the code enforces is the lower gate — each `save_fact` call made by
`learn_from_conversation` has metadata confidence ≥ 0.85 (values above 1
are stored as-is). -/
theorem saved_confidence_only_gated (engines : List Engine) (st : LearnState)
    (msg : String) (now : Nat) (call : SaveCall)
    (hc : call ∈ (learn_from_conversation engines st msg now).2.2) :
    mkRat 85 100 ≤ call.metadata.confidence := by
  unfold learn_from_conversation at hc
  rw [learn_calls] at hc
  simp only [List.nil_append, expectedSaves, List.mem_flatten, List.mem_map]
    at hc
  obtain ⟨l, ⟨engine, _, hl⟩, hcall⟩ := hc
  subst hl
  cases he : engine.extract msg with
  | error e => rw [he] at hcall; simp at hcall
  | ok facts =>
    rw [he] at hcall
    simp only [List.mem_map, List.mem_filter] at hcall
    obtain ⟨c, ⟨_, hgate⟩, hco⟩ := hcall
    subst hco
    simp only [passesGate, Bool.not_eq_true', decide_eq_false_iff_not,
      not_lt] at hgate
    exact hgate

/-- Witness for C4 (amended): the 0.90-confidence candidate of
`highConfEngine` reaches storage with confidence 0.90 ≥ 0.85. -/
theorem saved_confidence_only_gated_witness :
    (⟨"User likes green tea", "preferences",
        ⟨mkRat 90 100, "PatternBasedLearning", "i like tea"⟩⟩ : SaveCall)
        ∈ (learn_from_conversation [highConfEngine] initState
            "i like tea" 0).2.2 ∧
      mkRat 85 100
        ≤ (mkRat 90 100 : ℚ) :=
  ⟨by decide,
    saved_confidence_only_gated [highConfEngine] initState "i like tea" 0
      ⟨"User likes green tea", "preferences",
        ⟨mkRat 90 100, "PatternBasedLearning", "i like tea"⟩⟩ (by decide)⟩

/-! ## C5 — unrecognized categories are stored verbatim, not as "other" -/

/-- **C5, counterexample.**  The claim "a candidate fact whose category is
not one of the recognized values is stored with category `other`" is
false: a candidate with category `"banana"` and confidence 0.90 is stored
with category `"banana"`. -/
theorem category_not_normalized_counterexample :
    ((learn_from_conversation [bananaEngine] initState
          "my map collection" 0).1.data.facts.map (fun e => e.category))
        = ["banana"]
      ∧ ("banana" : String) ≠ "other" := by
  decide

/-- **C5, amended.**  `learn_from_conversation` performs no category
normalization: each gate-passing candidate is passed to storage with its
category string unchanged (`fact_data.get('category', 'general')`, so a
missing category defaults to `"general"`, not `"other"`). -/
theorem category_stored_verbatim (name msg : String)
    (f : String → Except String (List Candidate)) (st : LearnState)
    (now : Nat) (cs : List Candidate) (h : f msg = .ok cs) :
    ((learn_from_conversation [⟨name, f⟩] st msg now).2.2).map
        (fun call => call.category)
      = (cs.filter passesGate).map (fun c => c.category.getD "general") := by
  unfold learn_from_conversation
  rw [learn_calls]
  simp [expectedSaves, h, toSaveCall]

/-- Witness for C5 (amended): the `"banana"` category flows through
unchanged. -/
theorem category_stored_verbatim_witness :
    ((learn_from_conversation [bananaEngine] initState
        "my map collection" 0).2.2).map (fun call => call.category)
      = (([⟨some "User collects vintage maps", some "banana",
            some (mkRat 9 10)⟩] : List Candidate).filter passesGate).map
          (fun c => c.category.getD "general") :=
  category_stored_verbatim "LLMBasedLearning" "my map collection" _ initState 0
    [⟨some "User collects vintage maps", some "banana", some (mkRat 9 10)⟩]
    rfl

/-! ## C2 — monotonic specificity of `save_fact` -/

/-- **C2.** For A = "User likes pizza" and B = "User really likes pepperoni
pizza from Tony's", starting from the empty store and for any categories,
metadata and timestamps: inserting A then B leaves exactly one stored fact
whose text is B (A's entry is overwritten in place because the texts share
all three of A's words, exceeding the 0.7 overlap threshold, and B is
longer), and inserting B then A also leaves exactly one stored fact whose
text is B (A is similar but shorter, so it is dropped). -/
theorem monotonic_specificity (c1 c2 : String) (m1 m2 : Option FactMeta)
    (t1 t2 : Nat) :
    ((save_fact (save_fact ⟨[]⟩ "User likes pizza" c1 m1 t1).1
        "User really likes pepperoni pizza from Tony\x27s" c2 m2 t2).1.facts.map
          (fun e => e.fact)
      = ["User really likes pepperoni pizza from Tony\x27s"]) ∧
    ((save_fact (save_fact ⟨[]⟩
          "User really likes pepperoni pizza from Tony\x27s" c1 m1 t1).1
        "User likes pizza" c2 m2 t2).1.facts.map (fun e => e.fact)
      = ["User really likes pepperoni pizza from Tony\x27s"]) := by
  have hBA : are_similar
      (pyStrip (pyLower "User really likes pepperoni pizza from Tony\x27s"))
      (pyStrip (pyLower "User likes pizza")) = true := by decide
  have hAB : are_similar (pyStrip (pyLower "User likes pizza"))
      (pyStrip (pyLower "User really likes pepperoni pizza from Tony\x27s"))
      = true := by decide
  have hlen : ("User likes pizza" : String).length <
      ("User really likes pepperoni pizza from Tony\x27s" : String).length := by
    decide
  have hlen' : ¬ (("User really likes pepperoni pizza from Tony\x27s" :
      String).length < ("User likes pizza" : String).length) := by decide
  constructor
  · simp [save_fact, saveFactGo, mkFactEntry, hBA, hlen]
  · simp [save_fact, saveFactGo, mkFactEntry, hAB, hlen']

/-! ## C10 — the dedup-update path of `save_fact` mutates only in place -/

/-- **C10.** When the candidate text is similar to a stored fact — the
first similar entry the scan meets — and is strictly longer than it, only
that entry's `fact`, `timestamp` and `metadata` fields are replaced; its
`category`, `access_count` and `last_accessed` are untouched, no entry is
added or removed, and the call returns `False`. -/
theorem save_fact_update_in_place (l1 l2 : List FactEntry) (e : FactEntry)
    (fact category : String) (md : Option FactMeta) (now : Nat)
    (h1 : ∀ e' ∈ l1, are_similar (pyStrip (pyLower fact))
      (pyStrip (pyLower e'.fact)) = false)
    (h2 : are_similar (pyStrip (pyLower fact))
      (pyStrip (pyLower e.fact)) = true)
    (h3 : e.fact.length < fact.length) :
    save_fact ⟨l1 ++ e :: l2⟩ fact category md now
      = (⟨l1 ++ { e with fact := fact, timestamp := now, metadata := md } :: l2⟩,
          false) := by
  induction l1 with
  | nil => simp [save_fact, saveFactGo, h2, h3]
  | cons e' l1' ih =>
    have he' : are_similar (pyStrip (pyLower fact))
        (pyStrip (pyLower e'.fact)) = false := h1 e' (by simp)
    have ih' := ih (fun x hx => h1 x (by simp [hx]))
    simp only [save_fact, List.cons_append, saveFactGo, he',
      Bool.false_eq_true, if_false] at ih' ⊢
    simp only [Prod.mk.injEq, BackendData.mk.injEq] at ih' ⊢
    simp only [List.append_eq]
    exact ⟨by rw [ih'.1], ih'.2⟩

/-- Witness for C10: updating the stored "User likes pizza" entry (which
has category `"preferences"`, access count 2 and a last-access timestamp)
with the longer similar text replaces only `fact`/`timestamp`/`metadata`
and returns `False`. -/
theorem save_fact_update_in_place_witness :
    save_fact ⟨[⟨"User likes pizza", "preferences", 3, 2, some 1, none⟩]⟩
        "User really likes pepperoni pizza from Tony\x27s" "preferences"
        none 9
      = (⟨[⟨"User really likes pepperoni pizza from Tony\x27s", "preferences",
            9, 2, some 1, none⟩]⟩, false) :=
  save_fact_update_in_place [] []
    ⟨"User likes pizza", "preferences", 3, 2, some 1, none⟩
    "User really likes pepperoni pizza from Tony\x27s" "preferences" none 9
    (by simp) (by decide) (by decide)

/-! ## C8 — the training-data export round-trips -/

theorem factOfJson_factToJson (e : FactEntry) :
    factOfJson (factToJson e) = some e := by
  obtain ⟨f, c, t, a, la, md⟩ := e
  cases la <;> cases md <;> rfl

theorem mapM_loop_factOfJson (l : List FactEntry) :
    ∀ acc : List FactEntry,
      List.mapM.loop factOfJson (l.map factToJson) acc
        = some (acc.reverse ++ l) := by
  induction l with
  | nil => intro acc; simp [List.mapM.loop]
  | cons e es ih =>
    intro acc
    simp [List.mapM.loop, factOfJson_factToJson, ih]

theorem mapM_factOfJson (l : List FactEntry) :
    (l.map factToJson).mapM factOfJson = some l := by
  simpa using mapM_loop_factOfJson l []

/-- **C8.** For every store state, exporting the training data and parsing
the written document back yields a `facts` array equal — element for
element and field for field — to `get_all_facts()` at export time. -/
theorem export_roundtrip (data : BackendData) (now : Nat) :
    parseExportedFacts (export_training_data data now)
      = some (get_all_facts data) := by
  simp [parseExportedFacts, export_training_data, List.find?,
    mapM_loop_factOfJson]

/-! ## C9 — side effects of `get_facts` -/

theorem insertDesc_mem (x : FactEntry) (l : List FactEntry) (r : FactEntry) :
    r ∈ insertDesc x l ↔ r = x ∨ r ∈ l := by
  induction l with
  | nil => simp [insertDesc]
  | cons y ys ih =>
    simp only [insertDesc]
    split
    · simp only [List.mem_cons, ih]
      tauto
    · simp only [List.mem_cons]

theorem foldl_insertDesc_mem (r : FactEntry) :
    ∀ (l acc : List FactEntry),
      r ∈ l.foldl (fun a x => insertDesc x a) acc → r ∈ acc ∨ r ∈ l := by
  intro l
  induction l with
  | nil => intro acc h; exact Or.inl h
  | cons x xs ih =>
    intro acc h
    rw [List.foldl_cons] at h
    rcases ih (insertDesc x acc) h with h' | h'
    · rcases (insertDesc_mem x acc r).1 h' with h'' | h''
      · right; simp [h'']
      · left; exact h''
    · right; simp [h']

theorem pySortDesc_mem (l : List FactEntry) (r : FactEntry)
    (h : r ∈ pySortDesc l) : r ∈ l := by
  rcases foldl_insertDesc_mem r l [] h with h' | h'
  · simp at h'
  · exact h'

theorem gfStep_foldl_mem (expanded : List String) (ql : String) (now : Nat)
    (r : FactEntry) :
    ∀ (l : List FactEntry) (acc : List FactEntry × List FactEntry),
      r ∈ (l.foldl (gfStep expanded ql now) acc).2 →
        r ∈ acc.2 ∨ ∃ e ∈ l, r = bumpAccess now e := by
  intro l
  induction l with
  | nil => intro acc h; exact Or.inl h
  | cons e es ih =>
    intro acc h
    rw [List.foldl_cons] at h
    rcases ih (gfStep expanded ql now acc e) h with h' | h'
    · unfold gfStep at h'
      split at h'
      · rcases List.mem_cons.1 h' with h'' | h''
        · exact Or.inr ⟨e, by simp, h''⟩
        · exact Or.inl h''
      · split at h'
        · rcases List.mem_append.1 h' with h'' | h''
          · exact Or.inl h''
          · exact Or.inr ⟨e, by simp, by simpa using h''⟩
        · exact Or.inl h'
    · obtain ⟨e', he', hr⟩ := h'
      exact Or.inr ⟨e', by simp [he'], hr⟩

/-- **C9, counterexample.**  The second half of the claim — "for the empty
query, the most recently created `limit` facts are returned" — fails at
`limit = 0`: Python's slice `facts[-0:]` is `facts[0:]`, the whole list,
so an empty query with `limit = 0` on a one-fact store returns that one
fact instead of zero facts. -/
theorem get_facts_limit_zero_counterexample :
    (get_facts ⟨[⟨"User likes pizza", "preferences", 3, 0, none, none⟩]⟩
        "" 0 7).2
      = [⟨"User likes pizza", "preferences", 3, 0, none, none⟩]
    ∧ (get_facts ⟨[⟨"User likes pizza", "preferences", 3, 0, none, none⟩]⟩
        "" 0 7).2 ≠ [] := by
  decide

/-- **C9, amended.**  (1) For every non-empty query, every fact returned
by `get_facts` is the in-place bump of a pre-call entry: its
`access_count` is incremented by one and its `last_accessed` is set to the
call time.  (2) For the empty query the store is returned unchanged — no
fact is modified — together with the `facts[-limit:]` slice, (3) which for
`limit ≥ 1` is the `limit` most recently appended facts (for `limit = 0`
Python's `[-0:]` yields the whole list instead). -/
theorem get_facts_access_bump :
    (∀ (data : BackendData) (q : String) (limit now : Nat),
      q ≠ "" → ∀ r ∈ (get_facts data q limit now).2,
        ∃ e ∈ data.facts, r = bumpAccess now e) ∧
    (∀ (data : BackendData) (limit now : Nat),
      get_facts data "" limit now = (data, pyLastSlice limit data.facts)) ∧
    (∀ (l : List FactEntry) (limit : Nat), 0 < limit →
      pyLastSlice limit l = l.drop (l.length - limit)) := by
  refine ⟨?_, ?_, ?_⟩
  · intro data q limit now hq r hr
    unfold get_facts at hr
    rw [if_neg hq] at hr
    simp only at hr
    split at hr
    · simp at hr
    · have h1 := List.mem_of_mem_take hr
      have h2 := pySortDesc_mem _ _ h1
      rcases gfStep_foldl_mem _ _ now r data.facts ([], []) h2 with h3 | h3
      · simp at h3
      · exact h3
  · intro data limit now
    unfold get_facts
    rw [if_pos rfl]
  · intro l limit hlim
    unfold pyLastSlice
    rw [if_neg (Nat.pos_iff_ne_zero.1 hlim)]

/-- Witness for C9 (amended), part (1): querying "pizza" on a one-fact
store returns exactly the bumped copy of the stored entry. -/
theorem get_facts_access_bump_witness :
    ∃ e ∈ (⟨[⟨"User likes pizza", "preferences", 3, 0, none, none⟩]⟩ :
        BackendData).facts,
      (⟨"User likes pizza", "preferences", 3, 1, some 7, none⟩ : FactEntry)
        = bumpAccess 7 e :=
  get_facts_access_bump.1
    ⟨[⟨"User likes pizza", "preferences", 3, 0, none, none⟩]⟩ "pizza" 10 7
    (by decide)
    ⟨"User likes pizza", "preferences", 3, 1, some 7, none⟩
    (by decide)

/-! ## C3 — the under-3-words pre-filter -/

/-- **C3, counterexample.**  The claim "both extraction engine variants
return the empty list for every utterance of fewer than 3 words" is false
for `PatternBasedLearning.extract_facts`, which has no word-count guard:
the 2-word utterance "I'm Alice" passes its trivial-phrase and question
guards and matches the name pattern, yielding one candidate fact. -/
theorem pattern_engine_no_word_count_gate :
    (pySplitWs "I\x27m Alice").length < 3 ∧
      pattern_extract_facts "I\x27m Alice"
        = [⟨some "User\x27s name is Alice", some "identity",
            some (mkRat 9 10)⟩] := by
  decide

/-- **C3, amended.**  Only the `LLMBasedLearning` engine applies the
under-3-words pre-filter: for every utterance of fewer than 3 words
(`len(text.split()) < 3`) its `extract_facts` returns the empty list,
whatever the language model answers; `PatternBasedLearning` does not apply
this filter and can return candidates for a 2-word utterance. -/
theorem llm_engine_word_count_gate (llm : String → Option (List Candidate))
    (text : String) (h : (pySplitWs text).length < 3) :
    llm_extract_facts llm text = [] := by
  unfold llm_extract_facts
  rw [if_pos h]

/-- Witness for C3 (amended): a 2-word utterance yields no facts from the
LLM engine even when the model proposes a high-confidence fact. -/
theorem llm_engine_word_count_gate_witness :
    (pySplitWs "hello friend").length < 3 ∧
      llm_extract_facts
        (fun _ => some [⟨some "User greets their friends warmly",
          some "other", some 1⟩]) "hello friend" = [] :=
  ⟨by decide,
    llm_engine_word_count_gate
      (fun _ => some [⟨some "User greets their friends warmly",
        some "other", some 1⟩]) "hello friend" (by decide)⟩

end AIAssistant
